import Mathlib

/-!
Verification of the category-service caching subsystem.

The definitions below are a shallow embedding of the repository's
TypeScript source:

* `generateCacheKey` — `src/common/utils/cache-key.util.ts`
* `Store` (get/set/del) — the expiring key-value store `CacheService`
  (in-process `Map` from key to `{value, expiresAt}` with lazy expiry)
* `CategoriesService.*` — the service methods of
  `src/modules/categories` (read-through cache, invalidation fan-out,
  validation)
* `CacheInterceptor.intercept` — the HTTP-level cache interceptor

Asynchronous collaborators (the Mongo repository, the injected
cache-manager) are modelled as explicit function parameters; errors of
fallible calls are modelled with `Except`.  Time (`Date.now()`) is an
explicit `Nat` parameter in milliseconds.
-/

namespace Lawrose

/-- A JavaScript value appearing in a cache-key parameter bag.
`vJson raw` stands for a non-primitive (array/object) value carrying its
`JSON.stringify` image; the other constructors are primitives, converted
with JavaScript `String(value)`. -/
inductive JSValue where
  | vStr (s : String)
  | vNum (n : Int)
  | vBool (b : Bool)
  | vJson (raw : String)
  | vNull
  | vUndefined
deriving DecidableEq, Repr

/-- JavaScript stringification used by `generateCacheKey`:
`JSON.stringify` for arrays/objects, `String(value)` otherwise. -/
def JSValue.stringValue : JSValue → String
  | .vStr s => s
  | .vNum n => toString n
  | .vBool b => if b then "true" else "false"
  | .vJson raw => raw
  | .vNull => "null"
  | .vUndefined => "undefined"

/-- The `value !== undefined && value !== null` filter of `generateCacheKey`
(entries failing it are skipped). -/
def JSValue.isNullish : JSValue → Bool
  | .vNull => true
  | .vUndefined => true
  | _ => false

/-- Structure `CacheKeyParams` of `cache-key.util.ts`: optional `prefix`, `suffix`,
`separator`, plus the remaining named parameters in insertion order
(`pfx`/`sfx`/`sep` because `prefix` is a Lean keyword). -/
structure CacheKeyParams where
  pfx : Option String
  sfx : Option String
  sep : Option String
  pairs : List (String × JSValue)
deriving DecidableEq, Repr

/-- JavaScript `Array.prototype.join(sep)`. -/
def joinParts (sep : String) : List String → String
  | [] => ""
  | [p] => p
  | p :: ps => p ++ (sep ++ joinParts sep ps)

/-- Function `generateCacheKey(baseKey, params?)` from `cache-key.util.ts`:
without params return `baseKey`; otherwise push `prefix` (if truthy),
`baseKey`, each non-nullish parameter as `key + separator + stringValue`,
then `suffix` (if truthy), and join with the separator (default `:`). -/
def generateCacheKey (baseKey : String) (params : Option CacheKeyParams) : String :=
  match params with
  | none => baseKey
  | some p =>
      let sep := p.sep.getD ":"
      let parts : List String :=
        (match p.pfx with
         | some s => if s ≠ "" then [s] else []
         | none => [])
        ++ [baseKey]
        ++ p.pairs.filterMap (fun kv =>
             if kv.2.isNullish then none
             else some (kv.1 ++ (sep ++ kv.2.stringValue)))
        ++ (match p.sfx with
            | some s => if s ≠ "" then [s] else []
            | none => [])
      joinParts sep parts

/-- Parameter bag with only named parameters (the common call shape
`generateCacheKey(base, dtoObject)`). -/
def bagOf (pairs : List (String × JSValue)) : Option CacheKeyParams :=
  some ⟨none, none, none, pairs⟩

/-- Constant `CACHE_KEYS.CATEGORIES.ALL`. -/
def CACHE_KEYS.CATEGORIES.ALL : String := "categories:all"
/-- Constant `CACHE_KEYS.CATEGORIES.BY_ID`. -/
def CACHE_KEYS.CATEGORIES.BY_ID : String := "categories:id"
/-- Constant `CACHE_KEYS.CATEGORIES.BY_SLUG`. -/
def CACHE_KEYS.CATEGORIES.BY_SLUG : String := "categories:slug"
/-- Constant `CACHE_KEYS.CATEGORIES.BY_GENDER`. -/
def CACHE_KEYS.CATEGORIES.BY_GENDER : String := "categories:gender"
/-- Constant `CACHE_KEYS.CATEGORY_STATS`. -/
def CACHE_KEYS.CATEGORY_STATS : String := "categories:stats"
/-- Constant `CACHE_KEYS.CATEGORY_VALIDATION`. -/
def CACHE_KEYS.CATEGORY_VALIDATION : String := "categories:validation"
/-- Constant `CACHE_KEYS.CATEGORIES_WITH_SUBCATEGORIES`. -/
def CACHE_KEYS.CATEGORIES_WITH_SUBCATEGORIES : String := "categories:with-subcategories"

/-- Constant `CategoriesService.CACHE_TTL.LIST` (seconds). -/
def CACHE_TTL.LIST : Nat := 300
/-- Constant `CategoriesService.CACHE_TTL.DETAIL` (seconds). -/
def CACHE_TTL.DETAIL : Nat := 600
/-- Constant `CategoriesService.CACHE_TTL.STATS` (seconds). -/
def CACHE_TTL.STATS : Nat := 900
/-- Constant `CategoriesService.CACHE_TTL.VALIDATION` (seconds). -/
def CACHE_TTL.VALIDATION : Nat := 60

/-- One entry of the expiring store: `{ value, expiresAt }`
(`expiresAt` in milliseconds, as produced by `Date.now() + ttl*1000`). -/
structure CacheEntry (α : Type) where
  value : α
  expiresAt : Nat
deriving DecidableEq, Repr

/-- The expiring key-value store: the in-process
`Map<string, { value, expiresAt }>` of `CacheService`, as an association
list (first binding for a key wins).  The source stores strings
(`Store String`); the typed values kept by the service-level
cache-manager reuse the same structure at other `α`. -/
structure Store (α : Type) where
  entries : List (String × CacheEntry α)
deriving DecidableEq, Repr

/-- Raw `Map.get`: the current binding of `key`, expired or not. -/
def Store.lookup (st : Store α) (key : String) : Option (CacheEntry α) :=
  (st.entries.find? (fun p => p.1 == key)).map (·.2)

/-- Method `Map.delete(key)` (idempotent; deleting an absent key is a no-op). -/
def Store.del (st : Store α) (key : String) : Store α :=
  ⟨st.entries.filter (fun p => p.1 != key)⟩

/-- Method `CacheService.set(key, value, ttlSeconds)`: overwrite the binding of
`key` with `{ value, expiresAt: Date.now() + ttlSeconds * 1000 }`. -/
def Store.set (now : Nat) (st : Store α) (key : String) (value : α) (ttlSeconds : Nat) : Store α :=
  ⟨(key, ⟨value, now + ttlSeconds * 1000⟩) :: (st.del key).entries⟩

/-- Method `CacheService.get(key)`: return the value while
`entry.expiresAt > Date.now()`; otherwise delete the binding (lazy
expiry, also run when the entry is absent) and return `undefined`.
Returns the result together with the post-call store. -/
def Store.get (now : Nat) (st : Store α) (key : String) : Option α × Store α :=
  match st.lookup key with
  | some entry => if now < entry.expiresAt then (some entry.value, st) else (none, st.del key)
  | none => (none, st.del key)

/-- The injected cache-manager (`CACHE_MANAGER`) as seen by the service:
asynchronous `get`/`set` over some cache state `σ` that may reject
(`Except ε`).  The in-memory manager backed by the expiring store is the
instance `Store.mgr`. -/
structure CacheMgr (σ α ε : Type) where
  get : Nat → σ → String → Except ε (Option α × σ)
  set : Nat → σ → String → α → Nat → Except ε σ

/-- The in-memory cache-manager: `get`/`set` of the expiring store,
never rejecting. -/
def Store.mgr (α ε : Type) : CacheMgr (Store α) α ε where
  get := fun now st key => .ok (Store.get now st key)
  set := fun now st key value ttl => .ok (Store.set now st key value ttl)

/-- Errors escaping a service method: a thrown `BadRequestException`, or
an error rethrown from a collaborator (repository or cache-manager). -/
inductive SvcError (ε : Type) where
  | badRequest (msg : String)
  | thrown (e : ε)
deriving DecidableEq, Repr

/-- Model of mongoose `Types.ObjectId.isValid` on strings: a 24-character
hexadecimal string or any 12-character string. -/
def isValidObjectId (s : String) : Bool :=
  (s.length == 24 && s.data.all (fun c => c.isDigit || ('a' ≤ c && c ≤ 'f') || ('A' ≤ c && c ≤ 'F')))
  || s.length == 12

/-- Outcome of a read method: the returned/thrown result, the cache state
afterwards, and how many times the repository accessor was invoked. -/
structure ReadResult (σ γ ε : Type) where
  result : Except (SvcError ε) γ
  state : σ
  accessorCalls : Nat

/-- Outcome of a mutation method, over the expiring store. -/
structure MutResult (α γ ε : Type) where
  result : Except (SvcError ε) γ
  state : Store α
  repoCalls : Nat

/-- Cache key built by `findAll`:
`generateCacheKey(CACHE_KEYS.CATEGORIES.ALL, queryDto)` where the query
DTO is its bag of defined fields in insertion order. -/
def CategoriesService.findAllKey (queryDto : List (String × JSValue)) : String :=
  generateCacheKey CACHE_KEYS.CATEGORIES.ALL (bagOf queryDto)

/-- Method `CategoriesService.findAll(queryDto)`: try the cache under the query
key; on a hit return the cached list response; on a miss call
`categoriesRepository.findAll`, build the response (`mapResp`, standing
for the `mapToResponseDto` mapping over data plus pagination), cache it
with the LIST TTL and return it.  The surrounding `catch` logs and
rethrows every error, so collaborator failures propagate unchanged. -/
def CategoriesService.findAll (mgr : CacheMgr σ α ε)
    (repoFindAll : List (String × JSValue) → Except ε ρ) (mapResp : ρ → α)
    (now : Nat) (st : σ) (queryDto : List (String × JSValue)) : ReadResult σ α ε :=
  let cacheKey := CategoriesService.findAllKey queryDto
  match mgr.get now st cacheKey with
  | .error e => ⟨.error (.thrown e), st, 0⟩
  | .ok (some cachedResult, st₁) => ⟨.ok cachedResult, st₁, 0⟩
  | .ok (none, st₁) =>
      match repoFindAll queryDto with
      | .error e => ⟨.error (.thrown e), st₁, 1⟩
      | .ok result =>
          let response := mapResp result
          match mgr.set now st₁ cacheKey response CACHE_TTL.LIST with
          | .error e => ⟨.error (.thrown e), st₁, 1⟩
          | .ok st₂ => ⟨.ok response, st₂, 1⟩

/-- Cache key built by `findOne`:
`generateCacheKey(CACHE_KEYS.CATEGORIES.BY_ID, { id, includeSubcategories })`. -/
def CategoriesService.findOneKey (id : String) (includeSubcategories : Bool) : String :=
  generateCacheKey CACHE_KEYS.CATEGORIES.BY_ID
    (bagOf [("id", .vStr id), ("includeSubcategories", .vBool includeSubcategories)])

/-- Method `CategoriesService.findOne(id, includeSubcategories)`: reject an
invalid Mongo id before touching the cache; then read-through on the
BY_ID key with the DETAIL TTL, delegating to
`categoriesRepository.findById` on a miss. -/
def CategoriesService.findOne (mgr : CacheMgr σ α ε)
    (repoFindById : String → Except ε ρ) (mapResp : ρ → α)
    (now : Nat) (st : σ) (id : String) (includeSubcategories : Bool) : ReadResult σ α ε :=
  if isValidObjectId id then
    let cacheKey := CategoriesService.findOneKey id includeSubcategories
    match mgr.get now st cacheKey with
    | .error e => ⟨.error (.thrown e), st, 0⟩
    | .ok (some cachedResult, st₁) => ⟨.ok cachedResult, st₁, 0⟩
    | .ok (none, st₁) =>
        match repoFindById id with
        | .error e => ⟨.error (.thrown e), st₁, 1⟩
        | .ok category =>
            let response := mapResp category
            match mgr.set now st₁ cacheKey response CACHE_TTL.DETAIL with
            | .error e => ⟨.error (.thrown e), st₁, 1⟩
            | .ok st₂ => ⟨.ok response, st₂, 1⟩
  else ⟨.error (.badRequest "Invalid category ID format"), st, 0⟩

/-- The key list assembled by `clearCategoryCache(categoryId?)`: the four
family-wide keys, plus — when a truthy id is given — the exact strings
`categories:id:<id>` and the literal `categories:slug:*`.  The source
collects them in a `Set` and deletes each with `cacheManager.del`
(exact-key deletion); since the keys are pairwise distinct and deletion
is idempotent, the `Set` is modelled as the plain list. -/
def CategoriesService.clearCacheKeys (categoryId : Option String) : List String :=
  [CACHE_KEYS.CATEGORIES.ALL,
   CACHE_KEYS.CATEGORY_STATS,
   CACHE_KEYS.CATEGORIES.BY_GENDER,
   CACHE_KEYS.CATEGORIES_WITH_SUBCATEGORIES]
  ++ (match categoryId with
      | some cid =>
          if cid ≠ "" then
            [CACHE_KEYS.CATEGORIES.BY_ID ++ (":" ++ cid),
             CACHE_KEYS.CATEGORIES.BY_SLUG ++ ":*"]
          else []
      | none => [])

/-- Method `CategoriesService.clearCategoryCache(categoryId?)`: best-effort
exact-key deletion of every key in `clearCacheKeys` (individual failures
are swallowed; over the in-memory store deletion never fails). -/
def CategoriesService.clearCategoryCache (st : Store α) (categoryId : Option String) : Store α :=
  (CategoriesService.clearCacheKeys categoryId).foldl Store.del st

/-- Method `CategoriesService.update(id, dto)`: reject an invalid id before any
repository or cache interaction; otherwise update through the
repository, run the invalidation fan-out with the id, and return the
mapped entity.  Repository errors are rethrown. -/
def CategoriesService.update (repoUpdate : String → π → Except ε ρ) (mapResp : ρ → α)
    (st : Store α) (id : String) (dto : π) : MutResult α α ε :=
  if isValidObjectId id then
    match repoUpdate id dto with
    | .error e => ⟨.error (.thrown e), st, 1⟩
    | .ok updatedCategory =>
        ⟨.ok (mapResp updatedCategory), CategoriesService.clearCategoryCache st (some id), 1⟩
  else ⟨.error (.badRequest "Invalid category ID format"), st, 0⟩

/-- Method `CategoriesService.remove(id)` (soft delete): invalid-id check, then
`categoriesRepository.softDelete`, invalidation fan-out, and the fixed
success message. -/
def CategoriesService.remove (repoSoftDelete : String → Except ε ρ)
    (st : Store α) (id : String) : MutResult α String ε :=
  if isValidObjectId id then
    match repoSoftDelete id with
    | .error e => ⟨.error (.thrown e), st, 1⟩
    | .ok _ => ⟨.ok "Category deleted successfully", CategoriesService.clearCategoryCache st (some id), 1⟩
  else ⟨.error (.badRequest "Invalid category ID format"), st, 0⟩

/-- Method `CategoriesService.restore(id)`: invalid-id check, then
`categoriesRepository.restore`, invalidation fan-out, mapped entity. -/
def CategoriesService.restore (repoRestore : String → Except ε ρ) (mapResp : ρ → α)
    (st : Store α) (id : String) : MutResult α α ε :=
  if isValidObjectId id then
    match repoRestore id with
    | .error e => ⟨.error (.thrown e), st, 1⟩
    | .ok restoredCategory =>
        ⟨.ok (mapResp restoredCategory), CategoriesService.clearCategoryCache st (some id), 1⟩
  else ⟨.error (.badRequest "Invalid category ID format"), st, 0⟩

/-- Method `CategoriesService.hardDelete(id)`: invalid-id check, then
`categoriesRepository.hardDelete`, invalidation fan-out, and the fixed
success message. -/
def CategoriesService.hardDelete (repoHardDelete : String → Except ε Unit)
    (st : Store α) (id : String) : MutResult α String ε :=
  if isValidObjectId id then
    match repoHardDelete id with
    | .error e => ⟨.error (.thrown e), st, 1⟩
    | .ok _ => ⟨.ok "Category permanently deleted", CategoriesService.clearCategoryCache st (some id), 1⟩
  else ⟨.error (.badRequest "Invalid category ID format"), st, 0⟩

/-- Method `CategoriesService.updateStatus(id, status)`: invalid-id check, then
`categoriesRepository.updateStatus`, invalidation fan-out, mapped
entity (`θ` is the status enum). -/
def CategoriesService.updateStatus (repoUpdateStatus : String → θ → Except ε ρ) (mapResp : ρ → α)
    (st : Store α) (id : String) (status : θ) : MutResult α α ε :=
  if isValidObjectId id then
    match repoUpdateStatus id status with
    | .error e => ⟨.error (.thrown e), st, 1⟩
    | .ok updatedCategory =>
        ⟨.ok (mapResp updatedCategory), CategoriesService.clearCategoryCache st (some id), 1⟩
  else ⟨.error (.badRequest "Invalid category ID format"), st, 0⟩

/-- Cache key stored by `findBySlug`:
`generateCacheKey(CACHE_KEYS.CATEGORIES.BY_SLUG, { slug, includeSubcategories })`
— the only shape under which slug-keyed detail entries enter the cache. -/
def CategoriesService.findBySlugKey (slug : String) (includeSubcategories : Bool) : String :=
  generateCacheKey CACHE_KEYS.CATEGORIES.BY_SLUG
    (bagOf [("slug", .vStr slug), ("includeSubcategories", .vBool includeSubcategories)])

/-- Structure `CategoryValidationDto` returned by `validateCategory`. -/
structure CategoryValidationDto where
  nameAvailable : Bool
  slugAvailable : Bool
  suggestedSlug : Option String
  messages : List String
deriving DecidableEq, Repr

/-- Method `CategoriesService.generateUniqueSlug(baseSlug)`: starting from
counter 1, try `baseSlug-counter` against the repository slug-existence
query until a free one is found.  The source's `while` loop is unbounded;
`fuel` bounds the recursion in the model and `none` stands for the loop
not terminating within it. -/
def CategoriesService.generateUniqueSlug (slugExistsQ : String → Bool) (baseSlug : String) :
    Nat → Nat → Option String
  | 0, _ => none
  | fuel + 1, counter =>
      let uniqueSlug := baseSlug ++ ("-" ++ toString counter)
      if slugExistsQ uniqueSlug then
        CategoriesService.generateUniqueSlug slugExistsQ baseSlug fuel (counter + 1)
      else some uniqueSlug

/-- JS value of the optional `excludeId` argument inside the key bag
(`undefined` parameters are skipped by `generateCacheKey`). -/
def jsOfOptStr : Option String → JSValue
  | some s => .vStr s
  | none => .vUndefined

/-- Cache key built by `validateCategory`:
`generateCacheKey(CACHE_KEYS.CATEGORY_VALIDATION, { name, slug, excludeId })`. -/
def CategoriesService.validateKey (name slug : String) (excludeId : Option String) : String :=
  generateCacheKey CACHE_KEYS.CATEGORY_VALIDATION
    (bagOf [("name", .vStr name), ("slug", .vStr slug), ("excludeId", jsOfOptStr excludeId)])

/-- Method `CategoriesService.validateCategory(name, slug, excludeId?)`: try the
cache; on a miss run the two repository existence queries, and — when a
truthy `excludeId` was supplied and either query found a conflict —
unconditionally mark both name and slug available (the source's
"Simplified for now" branch).  If the slug is unavailable a suggested
slug is generated; the result is cached with the VALIDATION TTL.  The
existence queries are the boolean oracles `nameExistsQ`/`slugExistsQ`;
`none` propagates non-termination of `generateUniqueSlug`. -/
def CategoriesService.validateCategory (nameExistsQ slugExistsQ : String → Bool)
    (fuel now : Nat) (st : Store CategoryValidationDto)
    (name slug : String) (excludeId : Option String) :
    Option (CategoryValidationDto × Store CategoryValidationDto) :=
  let cacheKey := CategoriesService.validateKey name slug excludeId
  match Store.get now st cacheKey with
  | (some cachedResult, st₁) => some (cachedResult, st₁)
  | (none, st₁) =>
      let nameExists := nameExistsQ name
      let slugExists := slugExistsQ slug
      let excludeTruthy := match excludeId with
        | some eid => eid != ""
        | none => false
      let nameAvailable := if excludeTruthy && (nameExists || slugExists) then true else !nameExists
      let slugAvailable := if excludeTruthy && (nameExists || slugExists) then true else !slugExists
      let nameMsg := if nameAvailable then "Category name is available" else "Category name is already in use"
      if slugAvailable then
        let result : CategoryValidationDto :=
          ⟨nameAvailable, slugAvailable, none, [nameMsg, "Category slug is available"]⟩
        some (result, Store.set now st₁ cacheKey result CACHE_TTL.VALIDATION)
      else
        match CategoriesService.generateUniqueSlug slugExistsQ slug fuel 1 with
        | none => none
        | some suggestedSlug =>
            let result : CategoryValidationDto :=
              ⟨nameAvailable, slugAvailable, some suggestedSlug,
               [nameMsg, "Suggested alternative slug: " ++ suggestedSlug]⟩
            some (result, Store.set now st₁ cacheKey result CACHE_TTL.VALIDATION)

/-- One cache interaction performed by the HTTP interceptor. -/
inductive TraceOp where
  | get (key : String)
  | set (key : String) (ttl : Nat)
deriving DecidableEq, Repr

/-- Accessor `TraceOp.key`: the cache key an interaction used. -/
def TraceOp.key : TraceOp → String
  | .get k => k
  | .set k _ => k

/-- Outcome of `CacheInterceptor.intercept`: the response observable's
value, the store afterwards, and the cache interactions performed. -/
structure InterceptResult (α : Type) where
  response : α
  state : Store String
  trace : List TraceOp
deriving DecidableEq, Repr

/-- Method `CacheInterceptor.intercept`: read the `cacheKey` / `cacheTtl` route
metadata (`cacheTtl || 300`); without a truthy `cacheKey` pass the
handler's response through untouched.  Otherwise derive
`fullCacheKey = cacheKey + ":" + JSON.stringify(request.query)`, return
the parsed cached string when present and truthy, and otherwise run the
handler and cache its serialized response with the TTL.  `queryJson` is
the `JSON.stringify(request.query)` image, `encode`/`decode` the
`JSON.stringify`/`JSON.parse` pair on response payloads, `handlerData`
the value produced by `next.handle()`. -/
def CacheInterceptor.intercept (decode : String → α) (encode : α → String)
    (metaCacheKey : Option String) (metaCacheTtl : Option Nat)
    (queryJson : String) (handlerData : α) (now : Nat) (st : Store String) :
    InterceptResult α :=
  let cacheTtl := match metaCacheTtl with
    | some t => if t ≠ 0 then t else 300
    | none => 300
  let keyTruthy := match metaCacheKey with
    | some ck => ck != ""
    | none => false
  match metaCacheKey with
  | none => ⟨handlerData, st, []⟩
  | some ck =>
      if keyTruthy then
        let fullCacheKey := ck ++ (":" ++ queryJson)
        match Store.get now st fullCacheKey with
        | (some cached, st₁) =>
            if cached ≠ "" then ⟨decode cached, st₁, [.get fullCacheKey]⟩
            else
              ⟨handlerData, Store.set now st₁ fullCacheKey (encode handlerData) cacheTtl,
               [.get fullCacheKey, .set fullCacheKey cacheTtl]⟩
        | (none, st₁) =>
            ⟨handlerData, Store.set now st₁ fullCacheKey (encode handlerData) cacheTtl,
             [.get fullCacheKey, .set fullCacheKey cacheTtl]⟩
      else ⟨handlerData, st, []⟩

/-! ## Store lemmas -/

theorem find?_filter_bne_eq_none (l : List (String × CacheEntry α)) (key : String) :
    (l.filter (fun p => p.1 != key)).find? (fun p => p.1 == key) = none := by
  induction l with
  | nil => rfl
  | cons hd tl ih =>
      by_cases h : hd.1 = key
      · simp [List.filter_cons, h, ih]
      · simp [List.filter_cons, h, List.find?_cons, ih]

theorem Store.lookup_del_self (st : Store α) (key : String) :
    (st.del key).lookup key = none := by
  simp [Store.del, Store.lookup, find?_filter_bne_eq_none]

theorem find?_filter_bne_ne (l : List (String × CacheEntry α)) {k k' : String} (h : k' ≠ k) :
    (l.filter (fun p => p.1 != k)).find? (fun p => p.1 == k') =
      l.find? (fun p => p.1 == k') := by
  induction l with
  | nil => rfl
  | cons hd tl ih =>
      by_cases h1 : hd.1 = k
      · have h2 : hd.1 ≠ k' := by
          intro hk
          exact h (hk ▸ h1)
        simp [List.filter_cons, h1, List.find?_cons, h2, Ne.symm h, ih]
      · by_cases h2 : hd.1 = k'
        · simp [List.filter_cons, h1, List.find?_cons, h2, h]
        · simp [List.filter_cons, h1, List.find?_cons, h2, ih]

theorem Store.lookup_del_ne (st : Store α) {k k' : String} (h : k' ≠ k) :
    (st.del k).lookup k' = st.lookup k' := by
  simp [Store.del, Store.lookup, find?_filter_bne_ne _ h]

theorem Store.lookup_set_self (now : Nat) (st : Store α) (k : String) (v : α) (ttl : Nat) :
    (Store.set now st k v ttl).lookup k = some ⟨v, now + ttl * 1000⟩ := by
  simp [Store.set, Store.lookup, List.find?_cons]

theorem Store.lookup_set_ne (now : Nat) (st : Store α) {k k' : String} (v : α) (ttl : Nat)
    (h : k' ≠ k) : (Store.set now st k v ttl).lookup k' = st.lookup k' := by
  have hne : k ≠ k' := fun hk => h hk.symm
  simp [Store.set, Store.lookup, List.find?_cons, hne]
  simpa [Store.del, Store.lookup] using congrArg (Option.map Prod.snd)
    (find?_filter_bne_ne st.entries h)

theorem Store.get_of_lookup_none (now : Nat) (st : Store α) (k : String)
    (h : st.lookup k = none) : Store.get now st k = (none, st.del k) := by
  simp [Store.get, h]

theorem Store.get_of_lookup_live (now : Nat) (st : Store α) (k : String) (e : CacheEntry α)
    (h : st.lookup k = some e) (hlive : now < e.expiresAt) :
    Store.get now st k = (some e.value, st) := by
  simp [Store.get, h, hlive]

theorem Store.get_of_lookup_expired (now : Nat) (st : Store α) (k : String) (e : CacheEntry α)
    (h : st.lookup k = some e) (hexp : e.expiresAt ≤ now) :
    Store.get now st k = (none, st.del k) := by
  simp [Store.get, h, Nat.not_lt.2 hexp]

theorem Store.get_eq_of_fst_none (now : Nat) (st : Store α) (k : String)
    (h : (Store.get now st k).1 = none) : Store.get now st k = (none, st.del k) := by
  match hlk : st.lookup k with
  | none => exact Store.get_of_lookup_none now st k hlk
  | some e =>
      by_cases hlive : now < e.expiresAt
      · rw [Store.get_of_lookup_live now st k e hlk hlive] at h
        simp at h
      · exact Store.get_of_lookup_expired now st k e hlk (Nat.not_lt.1 hlive)

/-! ## Claim theorems -/

/-- C3: TTL expiry of the expiring store.  For every key `k`, value `v`
and positive `ttl`, after `set(k, v, ttl)` at time `t₀` a `get(k)`
returns `v` (leaving the store untouched) whenever the current time is
strictly before the recorded `expiresAt = t₀ + ttl*1000`; once the
current time reaches or passes `expiresAt`, `get(k)` returns absent and
that same `get` removes the entry from the map (lazy eviction). -/
theorem C3_ttl_expiry (st : Store String) (k v : String) (ttl t₀ : Nat) (hpos : 0 < ttl) :
    (∀ t₁, t₁ < t₀ + ttl * 1000 →
       Store.get t₁ (Store.set t₀ st k v ttl) k = (some v, Store.set t₀ st k v ttl)) ∧
    (∀ t₂, t₀ + ttl * 1000 ≤ t₂ →
       (Store.get t₂ (Store.set t₀ st k v ttl) k).1 = none ∧
       ((Store.get t₂ (Store.set t₀ st k v ttl) k).2).lookup k = none) := by
  have hlk := Store.lookup_set_self t₀ st k v ttl
  constructor
  · intro t₁ h₁
    exact Store.get_of_lookup_live t₁ _ k _ hlk h₁
  · intro t₂ h₂
    rw [Store.get_of_lookup_expired t₂ _ k _ hlk h₂]
    exact ⟨rfl, Store.lookup_del_self _ k⟩

/-- Witness for C3 at concrete inputs. -/
theorem C3_witness :
    0 < 1 ∧
    ((∀ t₁, t₁ < 0 + 1 * 1000 →
        Store.get t₁ (Store.set 0 (⟨[]⟩ : Store String) "k" "v" 1) "k" =
          (some "v", Store.set 0 (⟨[]⟩ : Store String) "k" "v" 1)) ∧
     (∀ t₂, 0 + 1 * 1000 ≤ t₂ →
        (Store.get t₂ (Store.set 0 (⟨[]⟩ : Store String) "k" "v" 1) "k").1 = none ∧
        ((Store.get t₂ (Store.set 0 (⟨[]⟩ : Store String) "k" "v" 1) "k").2).lookup "k" = none)) :=
  ⟨by decide, C3_ttl_expiry ⟨[]⟩ "k" "v" 1 0 (by decide)⟩

/-- C6: key-builder end-to-end literal.
`generateCacheKey("categories:all", {page: 1, limit: 10})` with the
default separator returns exactly `"categories:all:page:1:limit:10"`;
calling it twice with the same arguments yields the identical string,
and `page: 2` yields a different string than the page-1 key. -/
theorem C6_key_builder_literal :
    generateCacheKey "categories:all" (bagOf [("page", .vNum 1), ("limit", .vNum 10)]) =
      "categories:all:page:1:limit:10" ∧
    generateCacheKey "categories:all" (bagOf [("page", .vNum 1), ("limit", .vNum 10)]) =
      generateCacheKey "categories:all" (bagOf [("page", .vNum 1), ("limit", .vNum 10)]) ∧
    generateCacheKey "categories:all" (bagOf [("page", .vNum 2), ("limit", .vNum 10)]) ≠
      generateCacheKey "categories:all" (bagOf [("page", .vNum 1), ("limit", .vNum 10)]) :=
  ⟨rfl, rfl, by decide⟩

/-- C7: iteration-order dependence of key construction.  The bags
`{a: 1, b: 2}` and `{b: 2, a: 1}` contain the same key-value pairs (they
are permutations of one another) yet `generateCacheKey` produces
different cache keys over the same base key. -/
theorem C7_iteration_order_dependence :
    List.Perm [("a", JSValue.vNum 1), ("b", JSValue.vNum 2)]
      [("b", JSValue.vNum 2), ("a", JSValue.vNum 1)] ∧
    generateCacheKey "categories:all" (bagOf [("a", .vNum 1), ("b", .vNum 2)]) ≠
      generateCacheKey "categories:all" (bagOf [("b", .vNum 2), ("a", .vNum 1)]) :=
  ⟨List.Perm.swap _ _ _, by decide⟩

/-- C1: read-through population.  For the read operations `findAll` and
`findOne` (over the in-memory store): when the repository accessor
returns a value and the cache misses on the operation's key, the first
call invokes the accessor exactly once, stores the built response under
the operation's cache key with the operation-class TTL (LIST = 300 s for
`findAll`, DETAIL = 600 s for `findOne`) and returns it; a second call
with identical parameters within the TTL window returns the same value
without invoking the accessor again. -/
theorem C1_read_through_population {α ρ ε : Type}
    (repoFindAll : List (String × JSValue) → Except ε ρ)
    (repoFindById : String → Except ε ρ) (mapResp : ρ → α)
    (t₀ : Nat) (st : Store α) (q : List (String × JSValue)) (r : ρ)
    (id : String) (incSub : Bool) (rid : ρ)
    (hacc : repoFindAll q = .ok r)
    (hmiss : (Store.get t₀ st (CategoriesService.findAllKey q)).1 = none)
    (hid : isValidObjectId id = true)
    (haccOne : repoFindById id = .ok rid)
    (hmissOne : (Store.get t₀ st (CategoriesService.findOneKey id incSub)).1 = none) :
    ((CategoriesService.findAll (Store.mgr α ε) repoFindAll mapResp t₀ st q).result =
        .ok (mapResp r) ∧
     (CategoriesService.findAll (Store.mgr α ε) repoFindAll mapResp t₀ st q).accessorCalls = 1 ∧
     (CategoriesService.findAll (Store.mgr α ε) repoFindAll mapResp t₀ st q).state.lookup
         (CategoriesService.findAllKey q) = some ⟨mapResp r, t₀ + CACHE_TTL.LIST * 1000⟩ ∧
     ∀ t₁, t₁ < t₀ + CACHE_TTL.LIST * 1000 →
       (CategoriesService.findAll (Store.mgr α ε) repoFindAll mapResp t₁
           (CategoriesService.findAll (Store.mgr α ε) repoFindAll mapResp t₀ st q).state q).result =
         .ok (mapResp r) ∧
       (CategoriesService.findAll (Store.mgr α ε) repoFindAll mapResp t₁
           (CategoriesService.findAll (Store.mgr α ε) repoFindAll mapResp t₀ st q).state
           q).accessorCalls = 0) ∧
    ((CategoriesService.findOne (Store.mgr α ε) repoFindById mapResp t₀ st id incSub).result =
        .ok (mapResp rid) ∧
     (CategoriesService.findOne (Store.mgr α ε) repoFindById mapResp t₀ st id incSub).accessorCalls = 1 ∧
     (CategoriesService.findOne (Store.mgr α ε) repoFindById mapResp t₀ st id incSub).state.lookup
         (CategoriesService.findOneKey id incSub) = some ⟨mapResp rid, t₀ + CACHE_TTL.DETAIL * 1000⟩ ∧
     ∀ t₁, t₁ < t₀ + CACHE_TTL.DETAIL * 1000 →
       (CategoriesService.findOne (Store.mgr α ε) repoFindById mapResp t₁
           (CategoriesService.findOne (Store.mgr α ε) repoFindById mapResp t₀ st id incSub).state
           id incSub).result = .ok (mapResp rid) ∧
       (CategoriesService.findOne (Store.mgr α ε) repoFindById mapResp t₁
           (CategoriesService.findOne (Store.mgr α ε) repoFindById mapResp t₀ st id incSub).state
           id incSub).accessorCalls = 0) := by
  constructor
  · have hget : Store.get t₀ st (CategoriesService.findAllKey q) =
        (none, st.del (CategoriesService.findAllKey q)) :=
      Store.get_eq_of_fst_none t₀ st _ hmiss
    have h1 : CategoriesService.findAll (Store.mgr α ε) repoFindAll mapResp t₀ st q =
        ⟨.ok (mapResp r),
         Store.set t₀ (st.del (CategoriesService.findAllKey q)) (CategoriesService.findAllKey q)
           (mapResp r) CACHE_TTL.LIST, 1⟩ := by
      simp only [CategoriesService.findAll, Store.mgr, hget, hacc]
    rw [h1]
    refine ⟨rfl, rfl, Store.lookup_set_self _ _ _ _ _, ?_⟩
    intro t₁ ht₁
    have hget2 : Store.get t₁
        (Store.set t₀ (st.del (CategoriesService.findAllKey q)) (CategoriesService.findAllKey q)
          (mapResp r) CACHE_TTL.LIST) (CategoriesService.findAllKey q) =
        (some (mapResp r),
         Store.set t₀ (st.del (CategoriesService.findAllKey q)) (CategoriesService.findAllKey q)
           (mapResp r) CACHE_TTL.LIST) :=
      Store.get_of_lookup_live t₁ _ _ _ (Store.lookup_set_self _ _ _ _ _) ht₁
    have h2 : CategoriesService.findAll (Store.mgr α ε) repoFindAll mapResp t₁
        (Store.set t₀ (st.del (CategoriesService.findAllKey q)) (CategoriesService.findAllKey q)
          (mapResp r) CACHE_TTL.LIST) q =
        ⟨.ok (mapResp r),
         Store.set t₀ (st.del (CategoriesService.findAllKey q)) (CategoriesService.findAllKey q)
           (mapResp r) CACHE_TTL.LIST, 0⟩ := by
      simp only [CategoriesService.findAll, Store.mgr, hget2]
    rw [h2]
    exact ⟨rfl, rfl⟩
  · have hget : Store.get t₀ st (CategoriesService.findOneKey id incSub) =
        (none, st.del (CategoriesService.findOneKey id incSub)) :=
      Store.get_eq_of_fst_none t₀ st _ hmissOne
    have h1 : CategoriesService.findOne (Store.mgr α ε) repoFindById mapResp t₀ st id incSub =
        ⟨.ok (mapResp rid),
         Store.set t₀ (st.del (CategoriesService.findOneKey id incSub))
           (CategoriesService.findOneKey id incSub) (mapResp rid) CACHE_TTL.DETAIL, 1⟩ := by
      simp only [CategoriesService.findOne, Store.mgr, hid, if_true, hget, haccOne]
    rw [h1]
    refine ⟨rfl, rfl, Store.lookup_set_self _ _ _ _ _, ?_⟩
    intro t₁ ht₁
    have hget2 : Store.get t₁
        (Store.set t₀ (st.del (CategoriesService.findOneKey id incSub))
          (CategoriesService.findOneKey id incSub) (mapResp rid) CACHE_TTL.DETAIL)
        (CategoriesService.findOneKey id incSub) =
        (some (mapResp rid),
         Store.set t₀ (st.del (CategoriesService.findOneKey id incSub))
           (CategoriesService.findOneKey id incSub) (mapResp rid) CACHE_TTL.DETAIL) :=
      Store.get_of_lookup_live t₁ _ _ _ (Store.lookup_set_self _ _ _ _ _) ht₁
    have h2 : CategoriesService.findOne (Store.mgr α ε) repoFindById mapResp t₁
        (Store.set t₀ (st.del (CategoriesService.findOneKey id incSub))
          (CategoriesService.findOneKey id incSub) (mapResp rid) CACHE_TTL.DETAIL) id incSub =
        ⟨.ok (mapResp rid),
         Store.set t₀ (st.del (CategoriesService.findOneKey id incSub))
           (CategoriesService.findOneKey id incSub) (mapResp rid) CACHE_TTL.DETAIL, 0⟩ := by
      simp only [CategoriesService.findOne, Store.mgr, hid, if_true, hget2]
    rw [h2]
    exact ⟨rfl, rfl⟩

/-- Witness for C1: concrete accessors, empty store, query `[]`, id of
12 characters; the hypotheses hold and the first conjunct of the
conclusion follows by applying the theorem. -/
theorem C1_witness :
    ((fun _ : List (String × JSValue) => (Except.ok "LIST" : Except Unit String)) [] =
      .ok "LIST") ∧
    ((Store.get 0 (⟨[]⟩ : Store String) (CategoriesService.findAllKey [])).1 = none) ∧
    (isValidObjectId "0123456789ab" = true) ∧
    ((fun _ : String => (Except.ok "ONE" : Except Unit String)) "0123456789ab" = .ok "ONE") ∧
    ((Store.get 0 (⟨[]⟩ : Store String)
        (CategoriesService.findOneKey "0123456789ab" false)).1 = none) ∧
    ((CategoriesService.findAll (Store.mgr String Unit)
        (fun _ => .ok "LIST") (fun s => s) 0 ⟨[]⟩ []).result = .ok "LIST") :=
  ⟨rfl, rfl, by decide, rfl, rfl,
   (C1_read_through_population (fun _ => .ok "LIST") (fun _ => .ok "ONE") (fun s => s)
      0 ⟨[]⟩ [] "LIST" "0123456789ab" false "ONE" rfl rfl (by decide) rfl rfl).1.1⟩

/-- The injected cache-manager misbehaving on reads: its `get` rejects
with an unexpected error (the `CacheReadFailure` scenario), its `set`
behaves like the in-memory store. -/
def errGetMgr : CacheMgr (Store String) String Unit where
  get := fun _ _ _ => .error ()
  set := fun now st k v ttl => .ok (Store.set now st k v ttl)

/-- Counterexample to C4 as stated: with a cache whose lookup raises,
`findAll` does NOT fall through to the accessor (zero accessor calls)
and the cache-layer error IS propagated to the caller (the result is the
thrown error, not the accessor's value). -/
theorem C4_counterexample :
    (CategoriesService.findAll errGetMgr (fun _ => (.ok "V" : Except Unit String))
        (fun s => s) 0 ⟨[]⟩ []).result = .error (.thrown ()) ∧
    (CategoriesService.findAll errGetMgr (fun _ => (.ok "V" : Except Unit String))
        (fun s => s) 0 ⟨[]⟩ []).result ≠ .ok "V" ∧
    (CategoriesService.findAll errGetMgr (fun _ => (.ok "V" : Except Unit String))
        (fun s => s) 0 ⟨[]⟩ []).accessorCalls = 0 :=
  ⟨rfl, by simp [CategoriesService.findAll, errGetMgr], rfl⟩

/-- C4 (amended): cache-read-failure behavior of `findAll`.  If the
cache lookup raises an unexpected error, the surrounding `catch` logs
and rethrows it: the cache-layer error is propagated to the caller, the
accessor is never invoked, and the cache state is left as it was — the
failure is NOT treated as a cache miss. -/
theorem C4_amended_cache_read_failure {σ α ρ ε : Type} (mgr : CacheMgr σ α ε)
    (repoFindAll : List (String × JSValue) → Except ε ρ) (mapResp : ρ → α)
    (now : Nat) (st : σ) (q : List (String × JSValue)) (e : ε)
    (herr : mgr.get now st (CategoriesService.findAllKey q) = .error e) :
    CategoriesService.findAll mgr repoFindAll mapResp now st q =
      ⟨.error (.thrown e), st, 0⟩ := by
  simp only [CategoriesService.findAll, herr]

/-- Witness for the amended C4 at a concrete failing cache-manager. -/
theorem C4_witness :
    (errGetMgr.get 0 ⟨[]⟩ (CategoriesService.findAllKey []) = .error ()) ∧
    CategoriesService.findAll errGetMgr (fun _ => (.ok "V" : Except Unit String))
        (fun s => s) 0 ⟨[]⟩ [] = ⟨.error (.thrown ()), ⟨[]⟩, 0⟩ :=
  ⟨rfl, C4_amended_cache_read_failure errGetMgr (fun _ => .ok "V") (fun s => s)
     0 ⟨[]⟩ [] () rfl⟩

/-- C5: no negative caching.  If the underlying accessor throws on a
cache miss, `findAll` propagates that error unchanged, the store
contains no entry for the operation's key afterward, and the very next
call (at any time) invokes the accessor again. -/
theorem C5_no_negative_caching {α ρ ε : Type}
    (repoFindAll : List (String × JSValue) → Except ε ρ) (mapResp : ρ → α)
    (t₀ : Nat) (st : Store α) (q : List (String × JSValue)) (e : ε)
    (hacc : repoFindAll q = .error e)
    (hmiss : (Store.get t₀ st (CategoriesService.findAllKey q)).1 = none) :
    (CategoriesService.findAll (Store.mgr α ε) repoFindAll mapResp t₀ st q).result =
      .error (.thrown e) ∧
    (CategoriesService.findAll (Store.mgr α ε) repoFindAll mapResp t₀ st q).accessorCalls = 1 ∧
    (CategoriesService.findAll (Store.mgr α ε) repoFindAll mapResp t₀ st q).state.lookup
      (CategoriesService.findAllKey q) = none ∧
    ∀ t₁, (CategoriesService.findAll (Store.mgr α ε) repoFindAll mapResp t₁
        (CategoriesService.findAll (Store.mgr α ε) repoFindAll mapResp t₀ st q).state
        q).accessorCalls = 1 := by
  have hget : Store.get t₀ st (CategoriesService.findAllKey q) =
      (none, st.del (CategoriesService.findAllKey q)) :=
    Store.get_eq_of_fst_none t₀ st _ hmiss
  have h1 : CategoriesService.findAll (Store.mgr α ε) repoFindAll mapResp t₀ st q =
      ⟨.error (.thrown e), st.del (CategoriesService.findAllKey q), 1⟩ := by
    simp only [CategoriesService.findAll, Store.mgr, hget, hacc]
  rw [h1]
  refine ⟨rfl, rfl, Store.lookup_del_self _ _, ?_⟩
  intro t₁
  have hget2 : Store.get t₁ (st.del (CategoriesService.findAllKey q))
      (CategoriesService.findAllKey q) =
      (none, (st.del (CategoriesService.findAllKey q)).del (CategoriesService.findAllKey q)) :=
    Store.get_of_lookup_none t₁ _ _ (Store.lookup_del_self _ _)
  have h2 : CategoriesService.findAll (Store.mgr α ε) repoFindAll mapResp t₁
      (st.del (CategoriesService.findAllKey q)) q =
      ⟨.error (.thrown e),
       (st.del (CategoriesService.findAllKey q)).del (CategoriesService.findAllKey q), 1⟩ := by
    simp only [CategoriesService.findAll, Store.mgr, hget2, hacc]
  rw [h2]

/-- Witness for C5 at a concrete always-failing accessor. -/
theorem C5_witness :
    ((fun _ : List (String × JSValue) => (Except.error 7 : Except Nat String)) [] =
      .error 7) ∧
    ((Store.get 0 (⟨[]⟩ : Store String) (CategoriesService.findAllKey [])).1 = none) ∧
    ((CategoriesService.findAll (Store.mgr String Nat)
        (fun _ => .error 7) (fun s => s) 0 ⟨[]⟩ []).result = .error (.thrown 7)) :=
  ⟨rfl, rfl,
   (C5_no_negative_caching (fun _ => .error 7) (fun s => s) 0 ⟨[]⟩ [] 7 rfl rfl).1⟩

theorem findBySlugKey_eq (s : String) (b : Bool) :
    CategoriesService.findBySlugKey s b =
      "categories:slug" ++ (":" ++ (("slug" ++ (":" ++ s)) ++
        (":" ++ ("includeSubcategories" ++ (":" ++ (if b then "true" else "false")))))) := rfl

theorem findBySlugKey_length (s : String) (b : Bool) :
    47 + s.length ≤ (CategoriesService.findBySlugKey s b).length := by
  rw [findBySlugKey_eq]
  cases b <;>
    simp only [String.length_append, if_true, if_false, Bool.false_eq_true, ite_false, ite_true] <;>
    simp only [show ("categories:slug" : String).length = 15 from rfl,
      show (":" : String).length = 1 from rfl,
      show ("slug" : String).length = 4 from rfl,
      show ("includeSubcategories" : String).length = 20 from rfl,
      show ("true" : String).length = 4 from rfl,
      show ("false" : String).length = 5 from rfl] <;>
    omega

theorem findBySlugKey_ne_idKey (s cid : String) (b : Bool) :
    CategoriesService.findBySlugKey s b ≠ "categories:id" ++ (":" ++ cid) := by
  rw [findBySlugKey_eq]
  intro h
  have hd := congrArg String.data h
  simp only [String.data_append] at hd
  have h11 := congrArg (fun l => l[11]?) hd
  simp only at h11
  rw [List.getElem?_append_left (by decide), List.getElem?_append_left (by decide)] at h11
  exact absurd h11 (by decide)

theorem findBySlugKey_not_mem_clearCacheKeys (s cid : String) (b : Bool) :
    CategoriesService.findBySlugKey s b ∉ CategoriesService.clearCacheKeys (some cid) := by
  have hlen := findBySlugKey_length s b
  intro hmem
  simp only [CategoriesService.clearCacheKeys, CACHE_KEYS.CATEGORIES.ALL,
    CACHE_KEYS.CATEGORY_STATS, CACHE_KEYS.CATEGORIES.BY_GENDER,
    CACHE_KEYS.CATEGORIES_WITH_SUBCATEGORIES, CACHE_KEYS.CATEGORIES.BY_ID,
    CACHE_KEYS.CATEGORIES.BY_SLUG, List.mem_append, List.mem_cons,
    List.mem_singleton, List.not_mem_nil] at hmem
  have hne : ∀ t : String, (CategoriesService.findBySlugKey s b).length ≠ t.length →
      CategoriesService.findBySlugKey s b ≠ t := by
    intro t hl he
    exact hl (congrArg String.length he)
  rcases hmem with (h | h | h | h | hfalse) | h
  · exact hne "categories:all" (by
      simp only [show ("categories:all" : String).length = 14 from rfl]; omega) h
  · exact hne "categories:stats" (by
      simp only [show ("categories:stats" : String).length = 16 from rfl]; omega) h
  · exact hne "categories:gender" (by
      simp only [show ("categories:gender" : String).length = 17 from rfl]; omega) h
  · exact hne "categories:with-subcategories" (by
      simp only [show ("categories:with-subcategories" : String).length = 29 from rfl]; omega) h
  · exact hfalse
  · by_cases hc : cid = ""
    · simp [hc] at h
    · simp only [hc, ne_eq, not_false_eq_true, if_true, ite_true, List.mem_cons,
        List.mem_singleton, List.not_mem_nil, or_false] at h
      rcases h with h | h
      · exact findBySlugKey_ne_idKey s cid b h
      · exact hne ("categories:slug" ++ ":*") (by
          simp only [String.length_append,
            show ("categories:slug" : String).length = 15 from rfl,
            show (":*" : String).length = 2 from rfl]; omega) h

theorem foldl_del_lookup_not_mem (keys : List String) (st : Store α) (k : String)
    (h : k ∉ keys) : (keys.foldl Store.del st).lookup k = st.lookup k := by
  induction keys generalizing st with
  | nil => rfl
  | cons hd tl ih =>
      have hne : k ≠ hd := fun he => h (he ▸ List.mem_cons_self hd tl)
      have htl : k ∉ tl := fun ht => h (List.mem_cons_of_mem hd ht)
      calc ((hd :: tl).foldl Store.del st).lookup k
          = (tl.foldl Store.del (st.del hd)).lookup k := rfl
        _ = (st.del hd).lookup k := ih (st.del hd) htl
        _ = st.lookup k := Store.lookup_del_ne st hne

theorem lookup_none_del (st : Store α) (k k' : String) (h : st.lookup k = none) :
    (st.del k').lookup k = none := by
  by_cases hk : k = k'
  · subst hk
    exact Store.lookup_del_self st k
  · rw [Store.lookup_del_ne st hk]
    exact h

theorem foldl_del_lookup_none (keys : List String) (st : Store α) (k : String)
    (h : st.lookup k = none) : (keys.foldl Store.del st).lookup k = none := by
  induction keys generalizing st with
  | nil => exact h
  | cons hd tl ih => exact ih (st.del hd) (lookup_none_del st k hd h)

theorem foldl_del_lookup_mem (keys : List String) (st : Store α) (k : String)
    (h : k ∈ keys) : (keys.foldl Store.del st).lookup k = none := by
  induction keys generalizing st with
  | nil => exact absurd h (List.not_mem_nil k)
  | cons hd tl ih =>
      by_cases hk : k ∈ tl
      · exact ih (st.del hd) hk
      · have : k = hd := by
          rcases List.mem_cons.1 h with h1 | h1
          · exact h1
          · exact absurd h1 hk
        subst this
        exact foldl_del_lookup_none tl (st.del k) k (Store.lookup_del_self st k)

/-- C2: invalidation scope.  After the invalidation fan-out
`clearCategoryCache` runs with an entity id supplied (a truthy id
string), the four family-wide keys `categories:all`, `categories:stats`,
`categories:gender` and `categories:with-subcategories` and the
entity-scoped key `categories:id:<id>` are absent from the store; and no
cache entry stored under a slug cache key (the
`categories:slug:slug:<slug>:includeSubcategories:<bool>` keys under
which `findBySlug` stores entries) is ever removed by this path — the
literal `categories:slug:*` handed to the exact-key delete matches no
such key, so every slug-keyed binding is exactly what it was before. -/
theorem C2_invalidation_scope (α : Type) (st : Store α) (cid : String) (hcid : cid ≠ "") :
    (CategoriesService.clearCategoryCache st (some cid)).lookup CACHE_KEYS.CATEGORIES.ALL =
      none ∧
    (CategoriesService.clearCategoryCache st (some cid)).lookup CACHE_KEYS.CATEGORY_STATS =
      none ∧
    (CategoriesService.clearCategoryCache st (some cid)).lookup CACHE_KEYS.CATEGORIES.BY_GENDER =
      none ∧
    (CategoriesService.clearCategoryCache st
        (some cid)).lookup CACHE_KEYS.CATEGORIES_WITH_SUBCATEGORIES = none ∧
    (CategoriesService.clearCategoryCache st (some cid)).lookup
        (CACHE_KEYS.CATEGORIES.BY_ID ++ (":" ++ cid)) = none ∧
    ∀ (s : String) (b : Bool),
      (CategoriesService.clearCategoryCache st (some cid)).lookup
          (CategoriesService.findBySlugKey s b) =
        st.lookup (CategoriesService.findBySlugKey s b) := by
  have hkeys : CategoriesService.clearCacheKeys (some cid) =
      [CACHE_KEYS.CATEGORIES.ALL, CACHE_KEYS.CATEGORY_STATS, CACHE_KEYS.CATEGORIES.BY_GENDER,
       CACHE_KEYS.CATEGORIES_WITH_SUBCATEGORIES,
       CACHE_KEYS.CATEGORIES.BY_ID ++ (":" ++ cid), CACHE_KEYS.CATEGORIES.BY_SLUG ++ ":*"] := by
    simp [CategoriesService.clearCacheKeys, hcid]
  refine ⟨?_, ?_, ?_, ?_, ?_, ?_⟩
  · exact foldl_del_lookup_mem _ st _ (by rw [hkeys]; simp)
  · exact foldl_del_lookup_mem _ st _ (by rw [hkeys]; simp)
  · exact foldl_del_lookup_mem _ st _ (by rw [hkeys]; simp)
  · exact foldl_del_lookup_mem _ st _ (by rw [hkeys]; simp)
  · exact foldl_del_lookup_mem _ st _ (by rw [hkeys]; simp)
  · intro s b
    exact foldl_del_lookup_not_mem _ st _ (findBySlugKey_not_mem_clearCacheKeys s cid b)

/-- Witness for C2: a concrete store holding one slug-keyed entry and the
id `abc`; the family keys are deleted and the slug entry survives. -/
theorem C2_witness :
    ("abc" : String) ≠ "" ∧
    (CategoriesService.clearCategoryCache
        (⟨[(CategoriesService.findBySlugKey "shoes" false, ⟨"payload", 99⟩)]⟩ : Store String)
        (some "abc")).lookup CACHE_KEYS.CATEGORIES.ALL = none ∧
    (CategoriesService.clearCategoryCache
        (⟨[(CategoriesService.findBySlugKey "shoes" false, ⟨"payload", 99⟩)]⟩ : Store String)
        (some "abc")).lookup (CategoriesService.findBySlugKey "shoes" false) =
      (⟨[(CategoriesService.findBySlugKey "shoes" false, ⟨"payload", 99⟩)]⟩ :
        Store String).lookup (CategoriesService.findBySlugKey "shoes" false) := by
  have h := C2_invalidation_scope String
    ⟨[(CategoriesService.findBySlugKey "shoes" false, ⟨"payload", 99⟩)]⟩ "abc" (by decide)
  exact ⟨by decide, h.1, h.2.2.2.2.2 "shoes" false⟩

/-- C8: `excludeId` short-circuit in availability checking.  On a cache
miss, whenever `validateCategory` is called with a (truthy) `excludeId`
and either the name-existence or the slug-existence query reported a
conflict, the result reports `nameAvailable = true` and
`slugAvailable = true` unconditionally — regardless of which record
conflicts (the existence oracles are universally quantified). -/
theorem C8_excludeId_short_circuit (nameExistsQ slugExistsQ : String → Bool)
    (fuel now : Nat) (st : Store CategoryValidationDto) (name slug eid : String)
    (hmiss : (Store.get now st (CategoriesService.validateKey name slug (some eid))).1 = none)
    (heid : eid ≠ "")
    (hconf : (nameExistsQ name || slugExistsQ slug) = true) :
    ∃ r st',
      CategoriesService.validateCategory nameExistsQ slugExistsQ fuel now st name slug
          (some eid) = some (r, st') ∧
      r.nameAvailable = true ∧ r.slugAvailable = true := by
  have hget := Store.get_eq_of_fst_none now st _ hmiss
  have hbne : (eid != "") = true := bne_iff_ne.2 heid
  refine ⟨⟨true, true, none, ["Category name is available", "Category slug is available"]⟩,
    Store.set now (st.del (CategoriesService.validateKey name slug (some eid)))
      (CategoriesService.validateKey name slug (some eid))
      ⟨true, true, none, ["Category name is available", "Category slug is available"]⟩
      CACHE_TTL.VALIDATION, ?_, rfl, rfl⟩
  simp only [CategoriesService.validateCategory, hget, hbne, hconf, Bool.true_and,
    if_true, ite_true]

/-- Witness for C8: empty cache, a name conflict, `excludeId = "abc"`;
both availability flags come back true. -/
theorem C8_witness :
    ((Store.get 0 (⟨[]⟩ : Store CategoryValidationDto)
        (CategoriesService.validateKey "Shoes" "shoes" (some "abc"))).1 = none) ∧
    ("abc" : String) ≠ "" ∧
    (((fun _ : String => true) "Shoes" || (fun _ : String => false) "shoes") = true) ∧
    ∃ r st',
      CategoriesService.validateCategory (fun _ => true) (fun _ => false) 0 0 ⟨[]⟩
          "Shoes" "shoes" (some "abc") = some (r, st') ∧
      r.nameAvailable = true ∧ r.slugAvailable = true :=
  ⟨rfl, by decide, rfl,
   C8_excludeId_short_circuit (fun _ => true) (fun _ => false) 0 0 ⟨[]⟩
     "Shoes" "shoes" "abc" rfl (by decide) rfl⟩

/-- C9: invalid-id short-circuit leaves the cache untouched.  For every
string id that mongoose rejects, `findOne`, `update`, `remove`,
`restore`, `hardDelete` and `updateStatus` throw
`BadRequestException("Invalid category ID format")` before any cache or
repository interaction: the returned state is exactly the input state
and the repository was never called. -/
theorem C9_invalid_id_short_circuit {σ α ρ π θ ε : Type} (mgr : CacheMgr σ α ε)
    (repoFindById : String → Except ε ρ) (repoUpdate : String → π → Except ε ρ)
    (repoSoftDelete : String → Except ε ρ) (repoRestore : String → Except ε ρ)
    (repoHardDelete : String → Except ε Unit) (repoUpdateStatus : String → θ → Except ε ρ)
    (mapResp : ρ → α) (now : Nat) (stm : σ) (st : Store α) (id : String)
    (dto : π) (status : θ) (incSub : Bool)
    (hid : isValidObjectId id = false) :
    CategoriesService.findOne mgr repoFindById mapResp now stm id incSub =
      ⟨.error (.badRequest "Invalid category ID format"), stm, 0⟩ ∧
    CategoriesService.update repoUpdate mapResp st id dto =
      ⟨.error (.badRequest "Invalid category ID format"), st, 0⟩ ∧
    CategoriesService.remove repoSoftDelete st id =
      ⟨.error (.badRequest "Invalid category ID format"), st, 0⟩ ∧
    CategoriesService.restore repoRestore mapResp st id =
      ⟨.error (.badRequest "Invalid category ID format"), st, 0⟩ ∧
    CategoriesService.hardDelete repoHardDelete st id =
      ⟨.error (.badRequest "Invalid category ID format"), st, 0⟩ ∧
    CategoriesService.updateStatus repoUpdateStatus mapResp st id status =
      ⟨.error (.badRequest "Invalid category ID format"), st, 0⟩ := by
  refine ⟨?_, ?_, ?_, ?_, ?_, ?_⟩ <;>
    simp [CategoriesService.findOne, CategoriesService.update, CategoriesService.remove,
      CategoriesService.restore, CategoriesService.hardDelete, CategoriesService.updateStatus,
      hid]

/-- Witness for C9 at the concrete invalid id `"xyz"`. -/
theorem C9_witness :
    isValidObjectId "xyz" = false ∧
    CategoriesService.findOne (Store.mgr String Unit) (fun _ => .ok "C") (fun s => s) 0
        (⟨[]⟩ : Store String) "xyz" false =
      ⟨.error (.badRequest "Invalid category ID format"), ⟨[]⟩, 0⟩ :=
  ⟨by decide,
   (C9_invalid_id_short_circuit (Store.mgr String Unit) (fun _ => .ok "C")
      (fun _ (_ : Unit) => .ok "C") (fun _ => .ok "C") (fun _ => .ok "C")
      (fun _ => .ok ()) (fun _ (_ : Unit) => .ok "C") (fun s => s) 0 ⟨[]⟩ ⟨[]⟩
      "xyz" () () false (by decide)).1⟩

/-- C10: HTTP cache interceptor bypass and defaults.  Without `cacheKey`
route metadata `intercept` performs no cache interaction and returns the
handler's response with the store untouched; with metadata present every
cache interaction uses exactly the key
`cacheKey + ":" + JSON.stringify(request.query)`; and when the
`cacheTtl` annotation is missing every cache write uses the default TTL
of 300 seconds. -/
theorem C10_interceptor_bypass_and_defaults {α : Type} (decode : String → α)
    (encode : α → String) (metaCacheTtl : Option Nat) (queryJson : String)
    (handlerData : α) (now : Nat) (st : Store String) :
    (CacheInterceptor.intercept decode encode none metaCacheTtl queryJson handlerData now st =
      ⟨handlerData, st, []⟩) ∧
    (∀ ck : String, ∀ op ∈ (CacheInterceptor.intercept decode encode (some ck) metaCacheTtl
        queryJson handlerData now st).trace, op.key = ck ++ (":" ++ queryJson)) ∧
    (metaCacheTtl = none → ∀ ck k t, TraceOp.set k t ∈ (CacheInterceptor.intercept decode
        encode (some ck) metaCacheTtl queryJson handlerData now st).trace → t = 300) := by
  refine ⟨rfl, ?_, ?_⟩
  · intro ck op hop
    by_cases hck : ck = ""
    · subst hck
      simp [CacheInterceptor.intercept] at hop
    · have hbne : (ck != "") = true := bne_iff_ne.2 hck
      simp only [CacheInterceptor.intercept, hbne, if_true, ite_true] at hop
      rcases hgot : Store.get now st (ck ++ (":" ++ queryJson)) with ⟨cval, st₁⟩
      rw [hgot] at hop
      match cval with
      | some c =>
          by_cases hc : c = ""
          · simp [hc] at hop
            rcases hop with h | h <;> simp [h, TraceOp.key]
          · simp [hc] at hop
            simp [hop, TraceOp.key]
      | none =>
          simp at hop
          rcases hop with h | h <;> simp [h, TraceOp.key]
  · intro httl ck k t hop
    subst httl
    by_cases hck : ck = ""
    · subst hck
      simp [CacheInterceptor.intercept] at hop
    · have hbne : (ck != "") = true := bne_iff_ne.2 hck
      simp only [CacheInterceptor.intercept, hbne, if_true, ite_true] at hop
      rcases hgot : Store.get now st (ck ++ (":" ++ queryJson)) with ⟨cval, st₁⟩
      rw [hgot] at hop
      match cval with
      | some c =>
          by_cases hc : c = ""
          · simp [hc] at hop
            rcases hop with ⟨h1, h2⟩
            omega
          · simp [hc] at hop
      | none =>
          simp at hop
          rcases hop with ⟨h1, h2⟩
          omega

/-- Witness for C10: metadata `categories:all`, query `{}`, empty store;
the miss path performs exactly a get and a 300-second set on the
concatenated key. -/
theorem C10_witness :
    (TraceOp.set ("categories:all" ++ (":" ++ "\x7b\x7d")) 300 ∈
      (CacheInterceptor.intercept (fun s => s) (fun s => s) (some "categories:all") none
        "\x7b\x7d" "D" 0 (⟨[]⟩ : Store String)).trace) ∧
    ((none : Option Nat) = none) ∧
    (300 : Nat) = 300 :=
  ⟨by decide, rfl,
   (C10_interceptor_bypass_and_defaults (fun s : String => s) (fun s => s) none "\x7b\x7d"
      "D" 0 ⟨[]⟩).2.2 rfl "categories:all" ("categories:all" ++ (":" ++ "\x7b\x7d")) 300
      (by decide)⟩

end Lawrose
